import Mathlib

/-!
Shallow embedding of the Qt D-Bus proxy-interface layer
(`src/dbus/qdbusabstractinterface.cpp`): validity checking, proxy state,
call dispatch, property access, owner tracking and signal relay
notification handlers.  External collaborators that are not part of the
source under verification (`QDBusUtil` name checks, `QDBusMetaType`
signature registry, the connection) are modelled abstractly or from the
spec, as noted on each definition.
-/

namespace QDBusModel

/-- Error kinds, following the §7 enumeration of the spec (the concrete
`QDBusError::ErrorType` enum is not part of the source under `src/`).
`noError` is the default-constructed, invalid error. -/
inductive ErrorKind where
  | noError
  | malformedName
  | emptyNameNotAllowed
  | disconnected
  | unregisteredType
  | invalidSignature
  | failed
  | remote (name : String)
deriving DecidableEq, Repr

/-- Human-readable error messages, modelled structurally: each constructor
is one of the format strings the source interpolates, carrying exactly the
interpolated arguments.  This lets "the message names X" be stated as
membership of X in the interpolated arguments. -/
inductive ErrorMessage where
  | noMessage
  | disconnectedMessage
  | emptyServiceName
  | malformedServiceName (name : String)
  | emptyObjectPath
  | malformedObjectPath (path : String)
  | malformedInterfaceName (name : String)
  /-- "Unregistered type %1 cannot be handled" -/
  | unregisteredType (typeName : String)
  /-- The format string: Invalid signature %1 in return from call to org.freedesktop.DBus.Properties -/
  | invalidSigReturn (foundSignature : String)
  /-- The format string: Unexpected %1 (%2) when retrieving property %3.%4 (expected type %5 (%6)) -/
  | unexpectedProperty (foundType foundSignature iface propName expectedType expectedSignature : String)
  /-- message text taken verbatim from a remote error reply -/
  | remoteText (text : String)
deriving DecidableEq, Repr

/-- The strings interpolated into an error message (the variable parts of
the format string). -/
def ErrorMessage.mentioned : ErrorMessage → List String
  | .noMessage => []
  | .disconnectedMessage => []
  | .emptyServiceName => []
  | .malformedServiceName n => [n]
  | .emptyObjectPath => []
  | .malformedObjectPath p => [p]
  | .malformedInterfaceName n => [n]
  | .unregisteredType t => [t]
  | .invalidSigReturn f => [f]
  | .unexpectedProperty a b c d e f => [a, b, c, d, e, f]
  | .remoteText t => [t]

/-- Whether an error message names the string `s` among its interpolated
arguments. -/
def ErrorMessage.mentions (m : ErrorMessage) (s : String) : Bool :=
  m.mentioned.contains s

/-- `QDBusError`: an error kind plus a human-readable message. -/
structure DBusError where
  kind : ErrorKind
  message : ErrorMessage
deriving DecidableEq, Repr

/-- The default-constructed `QDBusError()`: no error. -/
def noError : DBusError := ⟨ErrorKind.noError, ErrorMessage.noMessage⟩

/-- `QDBusError::isValid()`: true iff the error carries an actual error. -/
def DBusError.isValidError (e : DBusError) : Bool :=
  e.kind != ErrorKind.noError

/-- `QDBusUtil::AllowEmptyFlag`. -/
inductive AllowEmptyFlag where
  | emptyAllowed
  | emptyNotAllowed
deriving DecidableEq, Repr

/-- The name-syntax predicates of `QDBusUtil` (`isValidBusName`,
`isValidObjectPath`, `isValidInterfaceName`).  Their definitions are not
part of the source under `src/`, so they are abstract parameters of the
model. -/
structure NameRules where
  busNameOk : String → Bool
  objectPathOk : String → Bool
  interfaceNameOk : String → Bool

/-- Modelled from the spec: `QDBusUtil::checkBusName` (not under `src/`;
§4.1: service name syntax must be valid, emptiness governed by the flag;
failure carries a specific kind — malformed name / empty not allowed — and
a message). Returns `none` on success. -/
def checkBusName (rules : NameRules) (name : String) (flag : AllowEmptyFlag) :
    Option DBusError :=
  if name.isEmpty then
    match flag with
    | .emptyAllowed => none
    | .emptyNotAllowed => some ⟨ErrorKind.emptyNameNotAllowed, ErrorMessage.emptyServiceName⟩
  else if rules.busNameOk name then none
  else some ⟨ErrorKind.malformedName, ErrorMessage.malformedServiceName name⟩

/-- Modelled from the spec: `QDBusUtil::checkObjectPath` (not under
`src/`; §4.1, same shape as `checkBusName`). -/
def checkObjectPath (rules : NameRules) (path : String) (flag : AllowEmptyFlag) :
    Option DBusError :=
  if path.isEmpty then
    match flag with
    | .emptyAllowed => none
    | .emptyNotAllowed => some ⟨ErrorKind.emptyNameNotAllowed, ErrorMessage.emptyObjectPath⟩
  else if rules.objectPathOk path then none
  else some ⟨ErrorKind.malformedName, ErrorMessage.malformedObjectPath path⟩

/-- Modelled from the spec: `QDBusUtil::checkInterfaceName` (not under
`src/`; §4.1, same shape as `checkBusName`). -/
def checkInterfaceName (rules : NameRules) (name : String) (flag : AllowEmptyFlag) :
    Option DBusError :=
  if name.isEmpty then
    match flag with
    | .emptyAllowed => none
    | .emptyNotAllowed => some ⟨ErrorKind.emptyNameNotAllowed, ErrorMessage.malformedInterfaceName name⟩
  else if rules.interfaceNameOk name then none
  else some ⟨ErrorKind.malformedName, ErrorMessage.malformedInterfaceName name⟩

/-- `checkIfValid` (qdbusabstractinterface.cpp:50-71): validate the
(service, path, interface) triple.  Service emptiness is rejected iff
`isDynamic && !isPeer`; path emptiness iff `isDynamic`; interface
emptiness is always allowed at this stage.  Returns `noError` when all
checks pass. -/
def checkIfValid (rules : NameRules) (service path interface : String)
    (isDynamic isPeer : Bool) : DBusError :=
  match checkBusName rules service
      (if isDynamic && !isPeer then .emptyNotAllowed else .emptyAllowed) with
  | some e => e
  | none =>
    match checkObjectPath rules path
        (if isDynamic then .emptyNotAllowed else .emptyAllowed) with
    | some e => e
    | none =>
      match checkInterfaceName rules interface .emptyAllowed with
      | some e => e
      | none => noError

/-- The service-rule violation predicate of §4.1: an empty service
violates the rules exactly when `isDynamic && !isPeer`; a non-empty
service violates them exactly when its syntax is invalid. -/
def serviceRuleViolated (rules : NameRules) (service : String)
    (isDynamic isPeer : Bool) : Bool :=
  if service.isEmpty then isDynamic && !isPeer else !rules.busNameOk service

/-- The path-rule violation predicate of §4.1. -/
def pathRuleViolated (rules : NameRules) (path : String) (isDynamic : Bool) : Bool :=
  if path.isEmpty then isDynamic else !rules.objectPathOk path

/-- The interface-rule violation predicate of §4.1: empty is always
accepted at this stage. -/
def interfaceRuleViolated (rules : NameRules) (interface : String) : Bool :=
  if interface.isEmpty then false else !rules.interfaceNameOk interface

/-- Qt meta types, identified by type name (`QMetaType`). -/
structure MetaType where
  name : String
deriving DecidableEq, Repr

/-- `QMetaType::QVariant`, the generic "any value" type. -/
def variantMetaType : MetaType := ⟨"QVariant"⟩

/-- The meta type of a marshalled, not-yet-decoded D-Bus value
(`QDBusArgument`). -/
def dbusArgumentMetaType : MetaType := ⟨"QDBusArgument"⟩

/-- `QVariant` values as far as the proxy layer inspects them: empty
(default-constructed), a string, an opaque decoded value of some meta
type, a variant container (`QDBusVariant`), or a marshalled value
(`QDBusArgument`) carrying its wire signature. -/
inductive QVariant where
  | empty
  | str (s : String)
  | value (type : MetaType)
  | dbusVariant (inner : QVariant)
  | dbusArgument (currentSignature : String)
deriving DecidableEq, Repr

/-- `QVariant::metaType()`. -/
def QVariant.metaType : QVariant → MetaType
  | .empty => ⟨""⟩
  | .str _ => ⟨"QString"⟩
  | .value t => t
  | .dbusVariant _ => ⟨"QDBusVariant"⟩
  | .dbusArgument _ => dbusArgumentMetaType

/-- `QVariant::typeName()`. -/
def QVariant.typeName (v : QVariant) : String := v.metaType.name

/-- `qvariant_cast<QDBusVariant>(v).variant()`: the payload of a variant
container, or the empty variant when `v` is not one (a failed cast yields
a default-constructed `QDBusVariant`). -/
def dbusVariantValue : QVariant → QVariant
  | .dbusVariant inner => inner
  | _ => .empty

/-- `QDBusMessage::MessageType`. -/
inductive MessageType where
  | invalid
  | methodCall
  | reply
  | error
  | signal
deriving DecidableEq, Repr

/-- `QDBusMessage`, as far as this layer builds and inspects it.  For
error messages the carried `QDBusError` is kept structured in `error`. -/
structure DBusMessage where
  type : MessageType
  service : String
  path : String
  interface : String
  member : String
  arguments : List QVariant
  signature : String
  error : DBusError
  interactiveAuthorizationAllowed : Bool
deriving DecidableEq, Repr

/-- `QDBusMessage::createMethodCall(service, path, interface, method)`. -/
def DBusMessage.createMethodCall (service path interface member : String) :
    DBusMessage :=
  ⟨.methodCall, service, path, interface, member, [], "", noError, false⟩

/-- `QDBusMessage::createError(error)`. -/
def DBusMessage.createError (e : DBusError) : DBusMessage :=
  ⟨.error, "", "", "", "", [], "", e, false⟩

/-- `QDBusError(const QDBusMessage &)`: extracts the error of an error
reply; for any other message type the result is the invalid (cleared)
error. -/
def errorFromReply (m : DBusMessage) : DBusError :=
  if m.type = MessageType.error then m.error else noError

/-- `QDBusConnectionPrivate::ConnectionMode`, restricted to what the proxy
distinguishes: a direct peer connection versus a named (multi-peer) bus.
A missing connection-private behaves like `bus` in `isValid()`. -/
inductive ConnectionMode where
  | peer
  | bus
deriving DecidableEq, Repr

/-- `QDBusAbstractInterfacePrivate`: the per-proxy state record. -/
structure ProxyState where
  service : String
  path : String
  interface : String
  mode : ConnectionMode
  connected : Bool
  timeout : Int
  lastError : DBusError
  isValid : Bool
  currentOwner : String
  interactiveAuthorizationAllowed : Bool
deriving DecidableEq, Repr

/-- `QDBusAbstractInterfacePrivate` constructor
(qdbusabstractinterface.cpp:73-92): run `checkIfValid`, derive the
validity flag, and if valid but the connection is down record a
`Disconnected` error. -/
def mkProxyState (rules : NameRules) (service path interface : String)
    (mode : ConnectionMode) (connected : Bool) (isDynamic : Bool) : ProxyState :=
  let e := checkIfValid rules service path interface isDynamic (mode = ConnectionMode.peer)
  let valid := !e.isValidError
  let e' := if valid && !connected then
      DBusError.mk ErrorKind.disconnected ErrorMessage.disconnectedMessage
    else e
  ⟨service, path, interface, mode, connected, -1, e', valid, "", false⟩

/-- `QDBusAbstractInterfacePrivate::canMakeCalls`
(qdbusabstractinterface.cpp:108-117): recheck empty (wildcard) service or
path just before a call, recording the error into `lastError` on failure.
Returns the boolean result together with the possibly-updated state. -/
def canMakeCalls (rules : NameRules) (d : ProxyState) : Bool × ProxyState :=
  if d.service.isEmpty && !(d.mode = ConnectionMode.peer) then
    match checkBusName rules d.service .emptyNotAllowed with
    | some e => (false, { d with lastError := e })
    | none => (true, d)
  else if d.path.isEmpty then
    match checkObjectPath rules d.path .emptyNotAllowed with
    | some e => (false, { d with lastError := e })
    | none => (true, d)
  else (true, d)

/-- `QDBusAbstractInterface::isValid` (qdbusabstractinterface.cpp:326-335):
for peer-mode connections the construction-time flag; otherwise whether
the tracked current owner is non-empty. -/
def interfaceIsValid (d : ProxyState) : Bool :=
  match d.mode with
  | .peer => d.isValid
  | .bus => !d.currentOwner.isEmpty

/-- `QDBusAbstractInterfacePrivate::_q_serviceOwnerChanged`
(qdbusabstractinterface.cpp:221-229): update the cached owner
unconditionally (the release build only asserts `name == service`). -/
def serviceOwnerChanged (d : ProxyState) (_name _oldOwner newOwner : String) :
    ProxyState :=
  { d with currentOwner := newOwner }

/-- `QDBus::CallMode`. -/
inductive CallMode where
  | noBlock
  | block
  | blockWithGui
  | autoDetect
deriving DecidableEq, Repr

/-- A declared method of the derived (generated) proxy meta-object:
its name and its tag string (`QMetaMethod::name/tag`). -/
structure MetaMethod where
  name : String
  tag : String
deriving DecidableEq, Repr

/-- The bare method name: `method` truncated at the first `.` separator
(qdbusabstractinterface.cpp:464-468, `indexOf` plus `truncate`). -/
def bareName (method : String) : String :=
  ⟨method.data.takeWhile (fun c => c ≠ '.')⟩

/-- `QByteArray::split(' ')` as used on the method tag
(qdbusabstractinterface.cpp:483): split into space-separated words,
keeping empty words. -/
def splitOnSpaceAux : List Char → List Char → List (List Char)
  | [], acc => [acc.reverse]
  | c :: cs, acc =>
    if c = ' ' then acc.reverse :: splitOnSpaceAux cs []
    else splitOnSpaceAux cs (c :: acc)

/-- The space-separated words of a string (see `splitOnSpaceAux`). -/
def splitOnSpace (s : String) : List String :=
  (splitOnSpaceAux s.data []).map (fun l => ⟨l⟩)

/-- Mode resolution (qdbusabstractinterface.cpp:470-490): on
`autoDetect`, scan the declared methods of the derived type (those beyond the
base meta-object) for the first one named `m`; the mode becomes `noBlock`
exactly when that first match carries the `Q_NOREPLY` tag, and the scan
stops at the first name match.  Any explicit mode is kept. -/
def resolveMode (derivedMethods : List MetaMethod) (mode : CallMode) (m : String) :
    CallMode :=
  match mode with
  | .autoDetect =>
    match derivedMethods.find? (fun mm => mm.name = m) with
    | some mm => if (splitOnSpace mm.tag).contains "Q_NOREPLY" then .noBlock else .block
    | none => .block
  | other => other

/-- The blocking call primitive of the connection
(`QDBusConnection::call(msg, mode, timeout)`), an external collaborator
modelled as an abstract response function. -/
def ConnCall : Type := DBusMessage → CallMode → Int → DBusMessage

/-- Result of a dispatched call: the returned message, the final proxy
state, and the messages handed to the connection (with their modes). -/
structure CallResult where
  reply : DBusMessage
  state : ProxyState
  sent : List (DBusMessage × CallMode)
deriving Repr

/-- The method-call message `callWithArgumentList` builds once the
preconditions pass (qdbusabstractinterface.cpp:493-495): addressed to the
(service, path, interface) of the proxy with the bare method name, the
arguments attached. -/
def callBuiltMessage (d : ProxyState) (method : String) (args : List QVariant) :
    DBusMessage :=
  { DBusMessage.createMethodCall d.service d.path d.interface (bareName method)
     with arguments := args }

/-- `QDBusAbstractInterface::callWithArgumentList`
(qdbusabstractinterface.cpp:455-506).  `sameThread` is the
`thread() == QThread::currentThread()` check; `derivedMethods` is the
declared method list of the derived meta-object. -/
def callWithArgumentList (rules : NameRules) (conn : ConnCall)
    (derivedMethods : List MetaMethod) (sameThread : Bool) (d : ProxyState)
    (mode : CallMode) (method : String) (args : List QVariant) : CallResult :=
  if !d.isValid then ⟨DBusMessage.createError d.lastError, d, []⟩
  else
    match canMakeCalls rules d with
    | (false, d1) => ⟨DBusMessage.createError d1.lastError, d1, []⟩
    | (true, d1) =>
      let mode1 := resolveMode derivedMethods mode (bareName method)
      let msg := callBuiltMessage d1 method args
      let reply := conn msg mode1 d1.timeout
      let d2 := if sameThread then { d1 with lastError := errorFromReply reply } else d1
      let reply1 := if reply.arguments.isEmpty then
          { reply with arguments := reply.arguments ++ [QVariant.empty] }
        else reply
      ⟨reply1, d2, [(msg, mode1)]⟩

/-- A pending-call handle (`QDBusPendingCall`): either a synthesized
error reply (`fromError`) or the handle that the asynchronous
primitive of the connection returns for a given message and timeout. -/
inductive PendingCall where
  | fromError (e : DBusError)
  | fromConnection (msg : DBusMessage) (timeout : Int)
deriving DecidableEq, Repr

/-- Result of an asynchronous dispatch: the pending-call handle, the final
proxy state, and the messages handed to the connection. -/
structure AsyncCallResult where
  pending : PendingCall
  state : ProxyState
  sent : List DBusMessage
deriving Repr

/-- The message `asyncCallWithArgumentList` builds once the preconditions
pass (qdbusabstractinterface.cpp:530-534): the method name is used as
given, and the message is marked interactive-authorization-allowed when
the proxy flag is set. -/
def asyncBuiltMessage (d : ProxyState) (method : String) (args : List QVariant) :
    DBusMessage :=
  let msg := { DBusMessage.createMethodCall d.service d.path d.interface method
                with arguments := args }
  if d.interactiveAuthorizationAllowed then
    { msg with interactiveAuthorizationAllowed := true }
  else msg

/-- `QDBusAbstractInterface::asyncCallWithArgumentList`
(qdbusabstractinterface.cpp:522-536): precondition checks, build the
message (marked interactive-authorization-allowed when the proxy flag is
set), and hand it to the async primitive of the connection. -/
def asyncCallWithArgumentList (rules : NameRules) (d : ProxyState)
    (method : String) (args : List QVariant) : AsyncCallResult :=
  if !d.isValid then ⟨PendingCall.fromError d.lastError, d, []⟩
  else
    match canMakeCalls rules d with
    | (false, d1) => ⟨PendingCall.fromError d1.lastError, d1, []⟩
    | (true, d1) =>
      let msg := asyncBuiltMessage d1 method args
      ⟨PendingCall.fromConnection msg d1.timeout, d1, [msg]⟩

/-- A declared property of the proxy meta-object (`QMetaProperty`): its
name and local meta type. -/
structure MetaProperty where
  name : String
  type : MetaType
deriving DecidableEq, Repr

/-- The `QDBusMetaType` registry (`typeToSignature`, `demarshall`) — an
external collaborator not under `src/`, modelled abstractly: the wire
signature registered for a meta type (if any) and whether demarshalling a
given signature into a given type succeeds. -/
structure MetaEnv where
  typeToSignature : MetaType → Option String
  demarshallOk : String → MetaType → Bool

/-- `QDBusUtil::dbusInterfaceProperties()`: the standard properties
sub-interface name. -/
def dbusInterfaceProperties : String := "org.freedesktop.DBus.Properties"

/-- The "Get" method-call message the property accessor sends
(qdbusabstractinterface.cpp:140-144): addressed to the standard properties
interface with the interface name of the proxy and the property name as
arguments. -/
def propGetMessage (d : ProxyState) (mp : MetaProperty) : DBusMessage :=
  { DBusMessage.createMethodCall d.service d.path dbusInterfaceProperties "Get"
     with arguments := [QVariant.str d.interface, QVariant.str mp.name] }

/-- Result of a property read: success flag, final proxy state, messages
handed to the connection, the value written to the output slot of the caller (if
any), and the console warning emitted (if any), carrying its
interpolated arguments (type name, interface, property name). -/
structure PropReadResult where
  ok : Bool
  state : ProxyState
  sent : List DBusMessage
  out : Option QVariant
  warning : Option (String × String × String)
deriving Repr

/-- `QDBusAbstractInterfacePrivate::property`
(qdbusabstractinterface.cpp:119-199): precondition checks; expected-wire-
signature lookup (failing with a generic `Failed` "Unregistered type"
error and a console warning when the non-variant local type has no
registered signature); the blocking "Get" call; reply-shape checks; and
the three acceptance paths for the unwrapped variant payload. -/
def propertyGet (rules : NameRules) (env : MetaEnv) (conn : ConnCall)
    (d : ProxyState) (mp : MetaProperty) : PropReadResult :=
  if !d.isValid then ⟨false, d, [], none, none⟩
  else
    match canMakeCalls rules d with
    | (false, d1) => ⟨false, d1, [], none, none⟩
    | (true, d1) =>
      let expectedSigOpt : Option String :=
        if mp.type ≠ variantMetaType then env.typeToSignature mp.type else some ""
      match expectedSigOpt with
      | none =>
        ⟨false,
         { d1 with lastError :=
             ⟨ErrorKind.failed, ErrorMessage.unregisteredType mp.type.name⟩ },
         [], none, some (mp.type.name, d1.interface, mp.name)⟩
      | some expectedSignature =>
        let msg := propGetMessage d1 mp
        let reply := conn msg .block d1.timeout
        if reply.type ≠ MessageType.reply then
          ⟨false, { d1 with lastError := errorFromReply reply }, [msg], none, none⟩
        else if reply.signature ≠ "v" then
          ⟨false,
           { d1 with lastError :=
               ⟨ErrorKind.invalidSignature, ErrorMessage.invalidSigReturn reply.signature⟩ },
           [msg], none, none⟩
        else
          let value := dbusVariantValue (reply.arguments.headD QVariant.empty)
          if value.metaType = mp.type ∨ mp.type = variantMetaType ∨ expectedSignature = "v" then
            ⟨true, d1, [msg], some value, none⟩
          else
            match value with
            | .dbusArgument sig =>
              if sig = expectedSignature then
                ⟨env.demarshallOk sig mp.type, d1, [msg], some value, none⟩
              else
                ⟨false,
                 { d1 with lastError :=
                     ⟨ErrorKind.invalidSignature,
                      ErrorMessage.unexpectedProperty "user type" sig d1.interface
                        mp.name mp.type.name expectedSignature⟩ },
                 [msg], none, none⟩
            | v =>
              ⟨false,
               { d1 with lastError :=
                   ⟨ErrorKind.invalidSignature,
                    ErrorMessage.unexpectedProperty v.typeName
                      ((env.typeToSignature v.metaType).getD "") d1.interface
                      mp.name mp.type.name expectedSignature⟩ },
               [msg], none, none⟩

/-- Side effects of the connect/disconnect notification handlers: a relay
registration handed to the connection, or a deferred disconnect event
posted to the event queue. -/
inductive NotifyEffect where
  | connectRelay (service path interface : String) (signalId : Int)
  | postDisconnectEvent (signalId : Int)
deriving DecidableEq, Repr

/-- `QDBusAbstractInterface::connectNotify`
(qdbusabstractinterface.cpp:618-635): bail out when the proxy is invalid
or the signal is the lifecycle-destruction signal; otherwise, when a
connection-private exists, register a relay match rule. -/
def connectNotify (d : ProxyState) (hasConnPrivate : Bool)
    (signalId destroyedSignalId : Int) : List NotifyEffect :=
  if !d.isValid then []
  else if signalId = destroyedSignalId then []
  else if hasConnPrivate then
    [NotifyEffect.connectRelay d.service d.path d.interface signalId]
  else []

/-- `QDBusAbstractInterface::disconnectNotify`
(qdbusabstractinterface.cpp:641-651): bail out when the proxy is invalid;
otherwise post the deferred disconnect event. -/
def disconnectNotify (d : ProxyState) (signalId : Int) : List NotifyEffect :=
  if !d.isValid then []
  else [NotifyEffect.postDisconnectEvent signalId]

/-! Concrete fixtures used by witnesses and counterexamples. -/

/-- Name rules accepting every name. -/
def trivialRules : NameRules :=
  ⟨fun _ => true, fun _ => true, fun _ => true⟩

/-- A syntactically valid, connected, owner-tracked proxy on a named bus. -/
def validProxy : ProxyState :=
  ⟨"org.example.Foo", "/obj", "org.example.Foo", ConnectionMode.bus, true, -1,
   noError, true, ":1.42", false⟩

/-- A proxy whose construction-time validation failed. -/
def invalidProxy : ProxyState :=
  ⟨"org..bad", "/obj", "org.example.Foo", ConnectionMode.bus, true, -1,
   ⟨ErrorKind.malformedName, ErrorMessage.malformedServiceName "org..bad"⟩,
   false, "", false⟩

/-- `validProxy` with interactive authorization enabled. -/
def authProxy : ProxyState :=
  { validProxy with interactiveAuthorizationAllowed := true }

/-- A connection whose blocking call always answers with an empty error
reply. -/
def trivConn : ConnCall := fun _ _ _ => DBusMessage.createError noError

/-- A connection answering every call with a remote error reply. -/
def errConn : ConnCall := fun _ _ _ =>
  DBusMessage.createError ⟨ErrorKind.remote "org.example.Err", ErrorMessage.remoteText "boom"⟩

/-- A connection answering with a normal reply carrying no output
arguments. -/
def emptyReplyConn : ConnCall := fun _ _ _ =>
  ⟨MessageType.reply, "", "", "", "", [], "", noError, false⟩

/-- A connection answering with a normal reply whose signature is a bare
string, not a single variant container. -/
def wrongShapeConn : ConnCall := fun _ _ _ =>
  ⟨MessageType.reply, "", "", "", "", [QVariant.dbusVariant (QVariant.str "x")], "s",
   noError, false⟩

/-- A signature registry knowing only the type named `int` (signature
`i`). -/
def intEnv : MetaEnv :=
  ⟨fun t => if t.name = "int" then some "i" else none, fun _ _ => true⟩

/-- A signature registry with no registered signatures. -/
def noneEnv : MetaEnv := ⟨fun _ => none, fun _ _ => true⟩

/-- The derived method table of the end-to-end example in §8 of the spec:
a single declared method `Ping` tagged `Q_NOREPLY`. -/
def pingMethods : List MetaMethod := [⟨"Ping", "Q_NOREPLY"⟩]

/-! Helper lemmas. -/

/-- When `canMakeCalls` succeeds it leaves the proxy state unchanged. -/
theorem canMakeCalls_true_snd (rules : NameRules) (d : ProxyState)
    (h : (canMakeCalls rules d).fst = true) : (canMakeCalls rules d).snd = d := by
  cases hs : d.service.isEmpty <;> cases hm : d.mode <;> cases hp : d.path.isEmpty <;>
    simp [canMakeCalls, checkBusName, checkObjectPath, hs, hm, hp] at h ⊢

/-! Claim theorems. -/

/-- C2: for every (service, path, interface, isDynamic, isPeerConnection)
input, `checkIfValid` returns an error iff one of the syntax/emptiness
rules is violated — empty service rejected exactly when
`isDynamic && !isPeer`, empty path exactly when `isDynamic`, empty
interface always accepted — and the violated rule determines the error
kind (malformed name for syntax failures, empty-name-not-allowed for
emptiness failures), the checks being tried in service, path, interface
order. -/
theorem checkIfValid_rule_characterization :
    ∀ (rules : NameRules) (service path interface : String) (isDynamic isPeer : Bool),
      ((checkIfValid rules service path interface isDynamic isPeer).kind =
        (if serviceRuleViolated rules service isDynamic isPeer then
          (if service.isEmpty then ErrorKind.emptyNameNotAllowed else ErrorKind.malformedName)
         else if pathRuleViolated rules path isDynamic then
          (if path.isEmpty then ErrorKind.emptyNameNotAllowed else ErrorKind.malformedName)
         else if interfaceRuleViolated rules interface then ErrorKind.malformedName
         else ErrorKind.noError)) ∧
      ((checkIfValid rules service path interface isDynamic isPeer).kind ≠ ErrorKind.noError ↔
        (serviceRuleViolated rules service isDynamic isPeer = true ∨
         pathRuleViolated rules path isDynamic = true ∨
         interfaceRuleViolated rules interface = true)) := by
  intro rules s p i dyn peer
  cases hs : s.isEmpty <;> cases hp : p.isEmpty <;> cases hi : i.isEmpty <;>
    cases dyn <;> cases peer <;>
    cases hbs : rules.busNameOk s <;> cases hop : rules.objectPathOk p <;>
    cases hin : rules.interfaceNameOk i <;>
      simp [checkIfValid, checkBusName, checkObjectPath, checkInterfaceName,
        serviceRuleViolated, pathRuleViolated, interfaceRuleViolated, noError,
        hs, hp, hi, hbs, hop, hin]

/-- C7: the owner-change handler sets `currentOwner` to the notified new
owner and changes nothing else; after the sequence ("svc","","A") then
("svc","A",""), the owner is empty, and on a named-bus connection the
externally observable validity is false. -/
theorem serviceOwnerChanged_owner_tracking :
    ∀ (d : ProxyState) (name oldOwner newOwner : String),
      serviceOwnerChanged d name oldOwner newOwner = { d with currentOwner := newOwner } ∧
      (serviceOwnerChanged (serviceOwnerChanged d "svc" "" "A") "svc" "A" "").currentOwner = "" ∧
      (d.mode = ConnectionMode.bus →
        interfaceIsValid
          (serviceOwnerChanged (serviceOwnerChanged d "svc" "" "A") "svc" "A" "") = false) := by
  intro d name oldOwner newOwner
  refine ⟨rfl, rfl, ?_⟩
  intro h
  simp [serviceOwnerChanged, interfaceIsValid, h]
  rfl

/-- C7 witness: the owner-change sequence applied to the concrete
`validProxy` on a named bus. -/
theorem serviceOwnerChanged_owner_tracking_witness :
    serviceOwnerChanged validProxy "n" "o" "B" = { validProxy with currentOwner := "B" } ∧
    interfaceIsValid
      (serviceOwnerChanged (serviceOwnerChanged validProxy "svc" "" "A") "svc" "A" "") = false := by
  have h := serviceOwnerChanged_owner_tracking validProxy "n" "o" "B"
  exact ⟨h.1, h.2.2 rfl⟩

/-- C10: when the construction-time validity flag is false, the
connect-notification handler registers no relay and the
disconnect-notification handler posts no deferred event: both produce no
effects at all. -/
theorem notifyHandlers_invalid_no_effects :
    ∀ (d : ProxyState) (hasConnPrivate : Bool) (sigC destroyedId sigD : Int),
      d.isValid = false →
      connectNotify d hasConnPrivate sigC destroyedId = [] ∧
      disconnectNotify d sigD = [] := by
  intro d hc s1 s2 s3 h
  simp [connectNotify, disconnectNotify, h]

/-- C10 witness: the handlers of the concrete `invalidProxy` produce no
effects. -/
theorem notifyHandlers_invalid_no_effects_witness :
    connectNotify invalidProxy true 3 0 = [] ∧ disconnectNotify invalidProxy 3 = [] :=
  notifyHandlers_invalid_no_effects invalidProxy true 3 0 3 rfl

/-- C1: a synchronous call on a proxy whose validity flag is false or
whose `canMakeCalls` precondition fails hands no message to the
connection and returns an error-reply message carrying exactly the stored
`lastError` at that moment. -/
theorem callWithArgumentList_invalid_error_reply :
    ∀ (rules : NameRules) (conn : ConnCall) (derivedMethods : List MetaMethod)
      (sameThread : Bool) (d : ProxyState) (mode : CallMode) (method : String)
      (args : List QVariant),
      d.isValid = false ∨ (canMakeCalls rules d).fst = false →
      (callWithArgumentList rules conn derivedMethods sameThread d mode method args).sent = [] ∧
      (callWithArgumentList rules conn derivedMethods sameThread d mode method args).reply =
        DBusMessage.createError
          (callWithArgumentList rules conn derivedMethods sameThread d mode method args).state.lastError ∧
      (callWithArgumentList rules conn derivedMethods sameThread d mode method args).reply.type =
        MessageType.error := by
  intro rules conn dm st d mode method args h
  cases hv : d.isValid
  · simp [callWithArgumentList, hv, DBusMessage.createError]
  · rcases h with h | h
    · rw [hv] at h; cases h
    · rcases hc : canMakeCalls rules d with ⟨b, d1⟩
      rw [hc] at h
      simp only at h
      subst h
      simp [callWithArgumentList, hv, hc, DBusMessage.createError]

/-- C1 witness: a call on the concrete `invalidProxy` sends nothing and
returns the stored error as an error reply. -/
theorem callWithArgumentList_invalid_error_reply_witness :
    (callWithArgumentList trivialRules trivConn [] true invalidProxy
        CallMode.autoDetect "Ping" []).sent = [] ∧
    (callWithArgumentList trivialRules trivConn [] true invalidProxy
        CallMode.autoDetect "Ping" []).reply =
      DBusMessage.createError
        (callWithArgumentList trivialRules trivConn [] true invalidProxy
            CallMode.autoDetect "Ping" []).state.lastError ∧
    (callWithArgumentList trivialRules trivConn [] true invalidProxy
        CallMode.autoDetect "Ping" []).reply.type = MessageType.error :=
  callWithArgumentList_invalid_error_reply trivialRules trivConn [] true invalidProxy
    CallMode.autoDetect "Ping" [] (Or.inl rfl)

/-- C6: a synchronous call that reaches the connection updates
`lastError` from the reply exactly when issued from the owning thread —
clearing it for a non-error reply and storing the error contents for an
error reply — and leaves `lastError` untouched when issued from any other
thread. -/
theorem callWithArgumentList_lastError_threading :
    ∀ (rules : NameRules) (conn : ConnCall) (derivedMethods : List MetaMethod)
      (sameThread : Bool) (d : ProxyState) (mode : CallMode) (method : String)
      (args : List QVariant),
      d.isValid = true → (canMakeCalls rules d).fst = true →
      (sameThread = false →
        (callWithArgumentList rules conn derivedMethods sameThread d mode method args).state.lastError
          = d.lastError) ∧
      (sameThread = true →
        (callWithArgumentList rules conn derivedMethods sameThread d mode method args).state.lastError
          = errorFromReply (conn (callBuiltMessage d method args)
              (resolveMode derivedMethods mode (bareName method)) d.timeout)) ∧
      ((conn (callBuiltMessage d method args)
          (resolveMode derivedMethods mode (bareName method)) d.timeout).type = MessageType.error →
        errorFromReply (conn (callBuiltMessage d method args)
            (resolveMode derivedMethods mode (bareName method)) d.timeout)
          = (conn (callBuiltMessage d method args)
              (resolveMode derivedMethods mode (bareName method)) d.timeout).error) ∧
      ((conn (callBuiltMessage d method args)
          (resolveMode derivedMethods mode (bareName method)) d.timeout).type ≠ MessageType.error →
        errorFromReply (conn (callBuiltMessage d method args)
            (resolveMode derivedMethods mode (bareName method)) d.timeout) = noError) := by
  intro rules conn dm st d mode method args hv hcm
  have hsnd := canMakeCalls_true_snd rules d hcm
  rcases hc : canMakeCalls rules d with ⟨b, d1⟩
  rw [hc] at hcm hsnd
  simp only at hcm hsnd
  subst hcm
  subst hsnd
  refine ⟨?_, ?_, ?_, ?_⟩
  · intro hst; subst hst; simp [callWithArgumentList, hv, hc]
  · intro hst; subst hst; simp [callWithArgumentList, hv, hc]
  · intro ht; simp [errorFromReply, ht]
  · intro ht; simp [errorFromReply, ht]

/-- C6 witness: an error reply on the owning thread is stored into
`lastError` of the concrete `validProxy`. -/
theorem callWithArgumentList_lastError_threading_witness :
    (callWithArgumentList trivialRules errConn [] true validProxy
        CallMode.block "Ping" []).state.lastError
      = errorFromReply (errConn (callBuiltMessage validProxy "Ping" [])
          (resolveMode [] CallMode.block (bareName "Ping")) validProxy.timeout) ∧
    (callWithArgumentList trivialRules errConn [] false validProxy
        CallMode.block "Ping" []).state.lastError = validProxy.lastError := by
  have h1 := callWithArgumentList_lastError_threading trivialRules errConn [] true validProxy
    CallMode.block "Ping" [] rfl rfl
  have h2 := callWithArgumentList_lastError_threading trivialRules errConn [] false validProxy
    CallMode.block "Ping" [] rfl rfl
  exact ⟨h1.2.1 rfl, h2.1 rfl⟩

/-- C9: for every synchronous call that reaches the connection, a reply
carrying zero output arguments gets exactly one empty placeholder
argument appended, and a reply already carrying arguments is returned
unmodified; in both cases the returned message has at least one
argument. -/
theorem callWithArgumentList_placeholder_argument :
    ∀ (rules : NameRules) (conn : ConnCall) (derivedMethods : List MetaMethod)
      (sameThread : Bool) (d : ProxyState) (mode : CallMode) (method : String)
      (args : List QVariant),
      d.isValid = true → (canMakeCalls rules d).fst = true →
      ((conn (callBuiltMessage d method args)
          (resolveMode derivedMethods mode (bareName method)) d.timeout).arguments = [] →
        (callWithArgumentList rules conn derivedMethods sameThread d mode method args).reply
          = { conn (callBuiltMessage d method args)
                (resolveMode derivedMethods mode (bareName method)) d.timeout
              with arguments := [QVariant.empty] }) ∧
      ((conn (callBuiltMessage d method args)
          (resolveMode derivedMethods mode (bareName method)) d.timeout).arguments ≠ [] →
        (callWithArgumentList rules conn derivedMethods sameThread d mode method args).reply
          = conn (callBuiltMessage d method args)
              (resolveMode derivedMethods mode (bareName method)) d.timeout) ∧
      (callWithArgumentList rules conn derivedMethods sameThread d mode method args).reply.arguments
        ≠ [] := by
  intro rules conn dm st d mode method args hv hcm
  have hsnd := canMakeCalls_true_snd rules d hcm
  rcases hc : canMakeCalls rules d with ⟨b, d1⟩
  rw [hc] at hcm hsnd
  simp only at hcm hsnd
  subst hcm
  rw [hsnd] at hc
  cases hra : (conn (callBuiltMessage d method args)
      (resolveMode dm mode (bareName method)) d.timeout).arguments with
  | nil =>
    refine ⟨?_, ?_, ?_⟩
    · intro _; simp [callWithArgumentList, hv, hc, hra]
    · intro hne; exact absurd rfl hne
    · simp [callWithArgumentList, hv, hc, hra]
  | cons a l =>
    refine ⟨?_, ?_, ?_⟩
    · intro h0; simp at h0
    · intro _; simp [callWithArgumentList, hv, hc, hra]
    · simp [callWithArgumentList, hv, hc, hra]

/-- C9 witness: a zero-argument reply to a call on the concrete
`validProxy` comes back with exactly one empty placeholder argument. -/
theorem callWithArgumentList_placeholder_argument_witness :
    (callWithArgumentList trivialRules emptyReplyConn [] true validProxy
        CallMode.block "Ping" []).reply
      = { emptyReplyConn (callBuiltMessage validProxy "Ping" [])
            (resolveMode [] CallMode.block (bareName "Ping")) validProxy.timeout
          with arguments := [QVariant.empty] } := by
  have h := callWithArgumentList_placeholder_argument trivialRules emptyReplyConn [] true
    validProxy CallMode.block "Ping" [] rfl rfl
  exact h.1 rfl

/-- C8: an asynchronous call passing the validity and `canMakeCalls`
preconditions sends exactly the built message, whose
interactive-authorization flag equals the proxy flag at that moment, and
returns the pending-call handle of the connection for that message and
the proxy timeout. -/
theorem asyncCall_interactive_authorization :
    ∀ (rules : NameRules) (d : ProxyState) (method : String) (args : List QVariant),
      d.isValid = true → (canMakeCalls rules d).fst = true →
      (asyncCallWithArgumentList rules d method args).sent
        = [asyncBuiltMessage d method args] ∧
      (asyncBuiltMessage d method args).interactiveAuthorizationAllowed
        = d.interactiveAuthorizationAllowed ∧
      (asyncCallWithArgumentList rules d method args).pending
        = PendingCall.fromConnection (asyncBuiltMessage d method args) d.timeout := by
  intro rules d method args hv hcm
  have hsnd := canMakeCalls_true_snd rules d hcm
  rcases hc : canMakeCalls rules d with ⟨b, d1⟩
  rw [hc] at hcm hsnd
  simp only at hcm hsnd
  subst hcm
  rw [hsnd] at hc
  refine ⟨?_, ?_, ?_⟩
  · simp [asyncCallWithArgumentList, hv, hc]
  · cases hia : d.interactiveAuthorizationAllowed <;>
      simp [asyncBuiltMessage, DBusMessage.createMethodCall, hia]
  · simp [asyncCallWithArgumentList, hv, hc]

/-- C8 witness: an asynchronous `Echo` call on the
interactively-authorized `authProxy` sends a message with the
interactive-authorization flag set and returns the connection handle. -/
theorem asyncCall_interactive_authorization_witness :
    (asyncCallWithArgumentList trivialRules authProxy "Echo" [QVariant.str "hi"]).sent
      = [asyncBuiltMessage authProxy "Echo" [QVariant.str "hi"]] ∧
    (asyncBuiltMessage authProxy "Echo" [QVariant.str "hi"]).interactiveAuthorizationAllowed
      = true ∧
    (asyncCallWithArgumentList trivialRules authProxy "Echo" [QVariant.str "hi"]).pending
      = PendingCall.fromConnection (asyncBuiltMessage authProxy "Echo" [QVariant.str "hi"])
          authProxy.timeout := by
  have h := asyncCall_interactive_authorization trivialRules authProxy "Echo"
    [QVariant.str "hi"] rfl rfl
  exact ⟨h.1, h.2.1, h.2.2⟩

/-- C3 (amended): for an auto-detect call passing the preconditions, the
connection receives the built message (whose member is the bare method
name, the input truncated at the first `.` separator) with the resolved
mode, and the mode resolves to fire-and-forget iff the FIRST declared
method of the derived type matching the bare name carries the `Q_NOREPLY`
tag; in every other case, including no match, it resolves to blocking. -/
theorem callWithArgumentList_autoDetect_first_match :
    ∀ (rules : NameRules) (conn : ConnCall) (derivedMethods : List MetaMethod)
      (sameThread : Bool) (d : ProxyState) (method : String) (args : List QVariant),
      d.isValid = true → (canMakeCalls rules d).fst = true →
      (callWithArgumentList rules conn derivedMethods sameThread d
          CallMode.autoDetect method args).sent
        = [(callBuiltMessage d method args,
            resolveMode derivedMethods CallMode.autoDetect (bareName method))] ∧
      (callBuiltMessage d method args).member = bareName method ∧
      (resolveMode derivedMethods CallMode.autoDetect (bareName method) = CallMode.noBlock ↔
        (∃ mm, derivedMethods.find? (fun mm2 => mm2.name = bareName method) = some mm ∧
               (splitOnSpace mm.tag).contains "Q_NOREPLY" = true)) := by
  intro rules conn dm st d method args hv hcm
  have hsnd := canMakeCalls_true_snd rules d hcm
  rcases hc : canMakeCalls rules d with ⟨b, d1⟩
  rw [hc] at hcm hsnd
  simp only at hcm hsnd
  subst hcm
  rw [hsnd] at hc
  refine ⟨?_, ?_, ?_⟩
  · simp [callWithArgumentList, hv, hc]
  · simp [callBuiltMessage, DBusMessage.createMethodCall]
  · cases hf : dm.find? (fun mm2 => mm2.name = bareName method) with
    | none => simp [resolveMode, hf]
    | some mm =>
      cases htag : (splitOnSpace mm.tag).contains "Q_NOREPLY" with
      | false => simp [resolveMode, hf, htag]
      | true => simp [resolveMode, hf, htag]

/-- C3 witness: the §8 end-to-end example — auto-detect call of `Ping` on
a proxy declaring `Ping` tagged `Q_NOREPLY` resolves to the
fire-and-forget mode. -/
theorem callWithArgumentList_autoDetect_first_match_witness :
    (callWithArgumentList trivialRules trivConn pingMethods true validProxy
        CallMode.autoDetect "Ping" []).sent
      = [(callBuiltMessage validProxy "Ping" [],
          resolveMode pingMethods CallMode.autoDetect (bareName "Ping"))] ∧
    resolveMode pingMethods CallMode.autoDetect (bareName "Ping") = CallMode.noBlock := by
  have h := callWithArgumentList_autoDetect_first_match trivialRules trivConn pingMethods
    true validProxy "Ping" [] rfl rfl
  exact ⟨h.1, by decide⟩

/-- C3 counterexample: with two declared methods both named `Ping`, the
first untagged and the second tagged `Q_NOREPLY`, a tagged declared
method matching the bare name exists, yet the call is dispatched in
blocking mode — the scan stops at the first name match. -/
theorem callWithArgumentList_autoDetect_counterexample :
    (callWithArgumentList trivialRules trivConn
        [⟨"Ping", ""⟩, ⟨"Ping", "Q_NOREPLY"⟩] true validProxy
        CallMode.autoDetect "Ping" []).sent
      = [(callBuiltMessage validProxy "Ping" [], CallMode.block)] ∧
    (∃ mm, mm ∈ [MetaMethod.mk "Ping" "", MetaMethod.mk "Ping" "Q_NOREPLY"] ∧
      mm.name = bareName "Ping" ∧ (splitOnSpace mm.tag).contains "Q_NOREPLY" = true) := by
  refine ⟨by decide, ⟨⟨"Ping", "Q_NOREPLY"⟩, by decide, by decide, by decide⟩⟩

/-- C4 (amended): a property Get whose blocking call returns an error
reply fails and stores that error into `lastError`; one whose reply has a
signature other than a single variant container fails with an
`InvalidSignature` error whose message reports the found signature (the
expected descriptors appear only in the later payload-type-mismatch
error). -/
theorem propertyGet_bad_reply_shape :
    ∀ (rules : NameRules) (env : MetaEnv) (conn : ConnCall) (d : ProxyState)
      (mp : MetaProperty),
      d.isValid = true → (canMakeCalls rules d).fst = true →
      (mp.type = variantMetaType ∨ env.typeToSignature mp.type ≠ none) →
      ((conn (propGetMessage d mp) CallMode.block d.timeout).type = MessageType.error →
        (propertyGet rules env conn d mp).ok = false ∧
        (propertyGet rules env conn d mp).state.lastError
          = (conn (propGetMessage d mp) CallMode.block d.timeout).error) ∧
      ((conn (propGetMessage d mp) CallMode.block d.timeout).type = MessageType.reply →
       (conn (propGetMessage d mp) CallMode.block d.timeout).signature ≠ "v" →
        (propertyGet rules env conn d mp).ok = false ∧
        (propertyGet rules env conn d mp).state.lastError.kind = ErrorKind.invalidSignature ∧
        (propertyGet rules env conn d mp).state.lastError.message.mentions
          ((conn (propGetMessage d mp) CallMode.block d.timeout).signature) = true) := by
  intro rules env conn d mp hv hcm h3
  have hsnd := canMakeCalls_true_snd rules d hcm
  rcases hc : canMakeCalls rules d with ⟨b, d1⟩
  rw [hc] at hcm hsnd
  simp only at hcm hsnd
  subst hcm
  rw [hsnd] at hc
  by_cases ht : mp.type = variantMetaType
  · refine ⟨?_, ?_⟩
    · intro hterr
      simp [propertyGet, hv, hc, ht, hterr, errorFromReply]
    · intro htr hsig2
      simp [propertyGet, hv, hc, ht, htr, hsig2, ErrorMessage.mentions,
        ErrorMessage.mentioned]
  · rcases h3 with h3 | h3
    · exact absurd h3 ht
    · cases hsig : env.typeToSignature mp.type with
      | none => exact absurd hsig h3
      | some sig =>
        refine ⟨?_, ?_⟩
        · intro hterr
          simp [propertyGet, hv, hc, ht, hsig, hterr, errorFromReply]
        · intro htr hsig2
          simp [propertyGet, hv, hc, ht, hsig, htr, hsig2, ErrorMessage.mentions,
            ErrorMessage.mentioned]

/-- C4 witness: a reply with signature `s` to a Get of an `int`-typed
property fails with an `InvalidSignature` error mentioning the found
signature. -/
theorem propertyGet_bad_reply_shape_witness :
    (propertyGet trivialRules intEnv wrongShapeConn validProxy
        ⟨"volume", ⟨"int"⟩⟩).ok = false ∧
    (propertyGet trivialRules intEnv wrongShapeConn validProxy
        ⟨"volume", ⟨"int"⟩⟩).state.lastError.kind = ErrorKind.invalidSignature ∧
    (propertyGet trivialRules intEnv wrongShapeConn validProxy
        ⟨"volume", ⟨"int"⟩⟩).state.lastError.message.mentions
      ((wrongShapeConn (propGetMessage validProxy ⟨"volume", ⟨"int"⟩⟩)
          CallMode.block validProxy.timeout).signature) = true := by
  have h := propertyGet_bad_reply_shape trivialRules intEnv wrongShapeConn validProxy
    ⟨"volume", ⟨"int"⟩⟩ rfl rfl (Or.inr (by decide))
  exact h.2 rfl (by decide)

/-- C4 counterexample: in the wrong-shape case the stored error message
is the found-signature format string only — it mentions neither the
expected wire signature of the property (`i`) nor the expected variant
container signature (`v`), so the claim that it contains both the found
and the expected descriptors fails. -/
theorem propertyGet_bad_reply_shape_counterexample :
    (propertyGet trivialRules intEnv wrongShapeConn validProxy
        ⟨"volume", ⟨"int"⟩⟩).state.lastError
      = ⟨ErrorKind.invalidSignature, ErrorMessage.invalidSigReturn "s"⟩ ∧
    intEnv.typeToSignature (MetaType.mk "int") = some "i" ∧
    (ErrorMessage.invalidSigReturn "s").mentions "i" = false ∧
    (ErrorMessage.invalidSigReturn "s").mentions "v" = false := by
  refine ⟨?_, ?_, ?_, ?_⟩ <;> decide

/-- C5 (amended): a property Get whose non-variant local type has no
registered wire signature fails without any network I/O, setting
`lastError` to a generic `Failed`-kind error whose message names the
offending type ("Unregistered type %1 cannot be handled"); the property
and interface are named only in the emitted console warning. -/
theorem propertyGet_unregistered_type :
    ∀ (rules : NameRules) (env : MetaEnv) (conn : ConnCall) (d : ProxyState)
      (mp : MetaProperty),
      d.isValid = true → (canMakeCalls rules d).fst = true →
      mp.type ≠ variantMetaType → env.typeToSignature mp.type = none →
      (propertyGet rules env conn d mp).ok = false ∧
      (propertyGet rules env conn d mp).sent = [] ∧
      (propertyGet rules env conn d mp).state.lastError
        = ⟨ErrorKind.failed, ErrorMessage.unregisteredType mp.type.name⟩ ∧
      (propertyGet rules env conn d mp).warning
        = some (mp.type.name, d.interface, mp.name) := by
  intro rules env conn d mp hv hcm ht hsig
  have hsnd := canMakeCalls_true_snd rules d hcm
  rcases hc : canMakeCalls rules d with ⟨b, d1⟩
  rw [hc] at hcm hsnd
  simp only at hcm hsnd
  subst hcm
  rw [hsnd] at hc
  simp [propertyGet, hv, hc, ht, hsig]

/-- C5 witness: a Get of a property of unregistered type `CustomStruct`
on the concrete `validProxy` fails without I/O, with the generic error
naming the type and the warning naming type, interface and property. -/
theorem propertyGet_unregistered_type_witness :
    (propertyGet trivialRules noneEnv trivConn validProxy
        ⟨"volume", ⟨"CustomStruct"⟩⟩).ok = false ∧
    (propertyGet trivialRules noneEnv trivConn validProxy
        ⟨"volume", ⟨"CustomStruct"⟩⟩).sent = [] ∧
    (propertyGet trivialRules noneEnv trivConn validProxy
        ⟨"volume", ⟨"CustomStruct"⟩⟩).state.lastError
      = ⟨ErrorKind.failed, ErrorMessage.unregisteredType "CustomStruct"⟩ ∧
    (propertyGet trivialRules noneEnv trivConn validProxy
        ⟨"volume", ⟨"CustomStruct"⟩⟩).warning
      = some ("CustomStruct", "org.example.Foo", "volume") :=
  propertyGet_unregistered_type trivialRules noneEnv trivConn validProxy
    ⟨"volume", ⟨"CustomStruct"⟩⟩ rfl rfl (by decide) rfl

/-- C5 counterexample: the unregistered-type failure sets an error of the
generic `Failed` kind, not an `UnregisteredType` kind, and its message
does not name the property — only the console warning does. -/
theorem propertyGet_unregistered_type_counterexample :
    (propertyGet trivialRules noneEnv trivConn validProxy
        ⟨"volume", ⟨"CustomStruct"⟩⟩).state.lastError.kind = ErrorKind.failed ∧
    ErrorKind.failed ≠ ErrorKind.unregisteredType ∧
    (propertyGet trivialRules noneEnv trivConn validProxy
        ⟨"volume", ⟨"CustomStruct"⟩⟩).state.lastError.message.mentions "volume" = false := by
  refine ⟨?_, ?_, ?_⟩ <;> decide

end QDBusModel
